import Mathlib

/-!
Verification of the MTSI-Team-5 eye-tracking controller.

This file gives a shallow embedding, in Lean 4, of the parts of the Python
sources relevant to the frozen claims:

* the directional packet codec and deadzone test of
  arduino_pwm_serial_output.py / serial_output_camera_http_server.py
  (method _calculate_directional_packet),
* the serial send path with its single reconnect attempt (send_packet),
* the control-loop packet dispatch (run),
* the shutdown routine (cleanup),
* the eye selector hysteresis of eye_detection_model.py (get_eye_location),
* the eye visibility test (_is_eye_visible),
* the attribute table of class EyeDetectionModel (for the missing
  get_current_frame method),
* the single-slot annotated-frame store guarded by frame_lock
  (latest_annotated_frame / get_latest_annotated_frame).

Machine integers of Python are modelled as Lean Int/Nat (Python ints are
unbounded, so no wrap-around is involved).  Floating point time stamps and
normalized landmark coordinates are modelled as rationals.  The floating
point comparison `(dx**2 + dy**2) ** 0.5 <= deadzone` is modelled by the
exact real comparison; a bridging lemma below shows the exact comparison
is equivalent to the integer test used in the embedding (for inputs in the
exactly representable range and a correctly rounded square root the float
comparison agrees with the real one).  Fallible Python code is modelled
with Except; `try/except` blocks become matches on Except values.
-/

namespace EyeTrack

/-! ## Packet codec: _calculate_directional_packet -/

/-- Decimal digit list (most significant first) of a natural number,
modelling the digits Python prints for a nonnegative int.  Fuel-based so
it reduces in the kernel; fuel n+1 always suffices since the argument is
divided by ten at each step. -/
def decReprAux : Nat → Nat → List Char
  | 0, _ => []
  | fuel + 1, n =>
    if n < 10 then [Nat.digitChar n]
    else decReprAux fuel (n / 10) ++ [Nat.digitChar (n % 10)]

/-- Decimal representation of a natural number as a list of digit chars. -/
def decRepr (n : Nat) : List Char := decReprAux (n + 1) n

/-- Python format spec 03d on a nonnegative int: the decimal digits,
left-padded with zeros to at least three characters.  No truncation or
clamping happens (matching the source, which has none). -/
def pad3 (n : Nat) : List Char :=
  List.replicate (3 - (decRepr n).length) '0' ++ decRepr n

/-- The no-detection packet "N000N000" sent when no eye is found. -/
def neutralPacket : List Char := ['N', '0', '0', '0', 'N', '0', '0', '0']

/-- The in-deadzone packet "U000L000" returned for a centered eye. -/
def inZonePacket : List Char := ['U', '0', '0', '0', 'L', '0', '0', '0']

/-- The else-branch of _calculate_directional_packet: direction letters
from the sign of the deltas, magnitudes from their absolute values,
formatted with 03d.  Transcribes
  dir_v = "U" if dy <= 0 else "D"; dir_h = "L" if dx <= 0 else "R";
  return dir_v + format(abs(dy), "03d") + dir_h + format(abs(dx), "03d"). -/
def encodeDir (dx dy : Int) : List Char :=
  (if dy ≤ 0 then 'U' else 'D') :: pad3 dy.natAbs
    ++ (if dx ≤ 0 then 'L' else 'R') :: pad3 dx.natAbs

/-- The deadzone test `(dx**2 + dy**2) ** 0.5 <= deadzone_pixels` of the
source, rendered exactly: the real square root of dx^2 + dy^2 is at most
the integer dz iff dz is nonnegative and dx^2 + dy^2 <= dz^2
(lemma inDeadzone_iff_sqrt below). -/
def inDeadzone (dz dx dy : Int) : Bool :=
  decide (0 ≤ dz ∧ dx ^ 2 + dy ^ 2 ≤ dz ^ 2)

/-- Transcription of _calculate_directional_packet: the reference point is
(frame_w // 2, frame_h // 2 - REFERENCE_OFFSET_PIXELS); deltas are taken
relative to it; within the deadzone the packet is "U000L000", otherwise
the directional encoding.  Python floor division // is Int.fdiv. -/
def calculate_directional_packet (eyeX eyeY fw fh off dz : Int) : List Char :=
  let refX := Int.fdiv fw 2
  let refY := Int.fdiv fh 2 - off
  let dx := eyeX - refX
  let dy := eyeY - refY
  if inDeadzone dz dx dy then inZonePacket
  else encodeDir dx dy

/-- Value of a digit-character group read as a decimal number. -/
def digitsVal (l : List Char) : Nat :=
  l.foldl (fun acc c => 10 * acc + (c.toNat - '0'.toNat)) 0

/-- Boolean rendering of the regular expression ^[UD]\d{3}[LR]\d{3}$ on an
eight character list (false on any other length). -/
def matchesDirPattern : List Char → Bool
  | [v, a, b, c, h, d, e, f] =>
    (v == 'U' || v == 'D') && a.isDigit && b.isDigit && c.isDigit &&
      (h == 'L' || h == 'R') && d.isDigit && e.isDigit && f.isDigit
  | _ => false

set_option maxRecDepth 20000 in
/-- For magnitudes below 1000 the 03d format yields exactly three digit
characters whose decimal value is the magnitude back. -/
lemma pad3_spec : ∀ n : Nat, n < 1000 →
    (pad3 n).length = 3 ∧ (pad3 n).all Char.isDigit = true ∧
      digitsVal (pad3 n) = n := by decide

/-- The deadzone test of the embedding agrees with the exact real
comparison sqrt(dx^2 + dy^2) <= dz performed (in floating point) by the
source. -/
lemma inDeadzone_iff_sqrt (dz dx dy : Int) :
    inDeadzone dz dx dy = true ↔
      Real.sqrt ((dx : ℝ) ^ 2 + (dy : ℝ) ^ 2) ≤ (dz : ℝ) := by
  have hd2 : (0 : ℝ) ≤ (dx : ℝ) ^ 2 + (dy : ℝ) ^ 2 := by positivity
  constructor
  · intro h
    rw [inDeadzone, decide_eq_true_iff] at h
    obtain ⟨hdz, hle⟩ := h
    have hle' : (dx : ℝ) ^ 2 + (dy : ℝ) ^ 2 ≤ ((dz : ℝ)) ^ 2 := by
      exact_mod_cast hle
    have h1 : Real.sqrt ((dx : ℝ) ^ 2 + (dy : ℝ) ^ 2) ≤
        Real.sqrt (((dz : ℝ)) ^ 2) := Real.sqrt_le_sqrt hle'
    rwa [Real.sqrt_sq (by exact_mod_cast hdz)] at h1
  · intro h
    rw [inDeadzone, decide_eq_true_iff]
    have hdz : (0 : ℝ) ≤ (dz : ℝ) := le_trans (Real.sqrt_nonneg _) h
    constructor
    · exact_mod_cast hdz
    · have h2 : (dx : ℝ) ^ 2 + (dy : ℝ) ^ 2 ≤ ((dz : ℝ)) ^ 2 := by
        calc (dx : ℝ) ^ 2 + (dy : ℝ) ^ 2
            = Real.sqrt ((dx : ℝ) ^ 2 + (dy : ℝ) ^ 2) ^ 2 :=
              (Real.sq_sqrt hd2).symm
          _ ≤ ((dz : ℝ)) ^ 2 := by
              exact pow_le_pow_left₀ (Real.sqrt_nonneg _) h 2
      exact_mod_cast h2

/-- The packet calculation is the ite the source writes (lets unfolded). -/
lemma calc_eq_ite (eyeX eyeY fw fh off dz : Int) :
    calculate_directional_packet eyeX eyeY fw fh off dz =
      if inDeadzone dz (eyeX - Int.fdiv fw 2) (eyeY - (Int.fdiv fh 2 - off))
      then inZonePacket
      else encodeDir (eyeX - Int.fdiv fw 2) (eyeY - (Int.fdiv fh 2 - off)) := rfl

/-- C1 (amended): for every eye position whose offset (dx, dy) from the
reference point is outside the deadzone and has magnitudes at most 999,
the packet has exactly 8 characters, matches the shape [UD]ddd[LR]ddd,
its characters at positions 0 and 4 are chosen by the signs of dy and dx,
and the two three-digit groups decode to min of the magnitude and 999.
(The source clamps nothing, so the bound on the magnitudes is needed; the
counterexample theorem shows the unbounded claim fails.) -/
theorem claim_C1_encode_format (fw fh off dz dx dy : Int)
    (hout : inDeadzone dz dx dy = false)
    (hx : dx.natAbs ≤ 999) (hy : dy.natAbs ≤ 999) :
    (calculate_directional_packet (Int.fdiv fw 2 + dx) (Int.fdiv fh 2 - off + dy)
        fw fh off dz).length = 8 ∧
    matchesDirPattern (calculate_directional_packet (Int.fdiv fw 2 + dx)
        (Int.fdiv fh 2 - off + dy) fw fh off dz) = true ∧
    (calculate_directional_packet (Int.fdiv fw 2 + dx) (Int.fdiv fh 2 - off + dy)
        fw fh off dz)[0]? = some (if dy ≤ 0 then 'U' else 'D') ∧
    (calculate_directional_packet (Int.fdiv fw 2 + dx) (Int.fdiv fh 2 - off + dy)
        fw fh off dz)[4]? = some (if dx ≤ 0 then 'L' else 'R') ∧
    digitsVal (((calculate_directional_packet (Int.fdiv fw 2 + dx)
        (Int.fdiv fh 2 - off + dy) fw fh off dz).drop 1).take 3) =
      min dy.natAbs 999 ∧
    digitsVal ((calculate_directional_packet (Int.fdiv fw 2 + dx)
        (Int.fdiv fh 2 - off + dy) fw fh off dz).drop 5) = min dx.natAbs 999 := by
  obtain ⟨hyl, hyd, hyv⟩ := pad3_spec dy.natAbs (by omega)
  obtain ⟨hxl, hxd, hxv⟩ := pad3_spec dx.natAbs (by omega)
  obtain ⟨a, b, c, habc⟩ := List.length_eq_three.mp hyl
  obtain ⟨d, e, f, hdef⟩ := List.length_eq_three.mp hxl
  have hdx : Int.fdiv fw 2 + dx - Int.fdiv fw 2 = dx := by ring
  have hdy : Int.fdiv fh 2 - off + dy - (Int.fdiv fh 2 - off) = dy := by ring
  have hpkt : calculate_directional_packet (Int.fdiv fw 2 + dx)
      (Int.fdiv fh 2 - off + dy) fw fh off dz =
      (if dy ≤ 0 then 'U' else 'D') :: a :: b :: c ::
        (if dx ≤ 0 then 'L' else 'R') :: d :: e :: f :: [] := by
    rw [calc_eq_ite, hdx, hdy, hout]
    simp [encodeDir, habc, hdef]
  rw [hpkt]
  rw [habc] at hyd hyv
  rw [hdef] at hxd hxv
  simp only [List.all_cons, List.all_nil, Bool.and_true, Bool.and_eq_true] at hyd hxd
  refine ⟨rfl, ?_, rfl, rfl, ?_, ?_⟩
  · by_cases hdy0 : dy ≤ 0 <;> by_cases hdx0 : dx ≤ 0 <;>
      simp [matchesDirPattern, hdy0, hdx0, hyd.1, hyd.2.1, hyd.2.2,
        hxd.1, hxd.2.1, hxd.2.2]
  · rw [Nat.min_eq_left hy]
    exact hyv
  · rw [Nat.min_eq_left hx]
    exact hxv

/-- C1 witness: a concrete offset (dx, dy) = (5, -40) outside the default
deadzone yields an 8 character packet. -/
theorem claim_C1_witness :
    (calculate_directional_packet (Int.fdiv 640 2 + 5)
      (Int.fdiv 480 2 - 210 + -40) 640 480 210 10).length = 8 :=
  (claim_C1_encode_format 640 480 210 10 5 (-40) (by decide) (by decide)
    (by decide)).1

/-- C1 counterexample: at eye position (320, 1030) in a 640 by 480 frame
with offset 210 and deadzone 10, the offset is (0, 1000), outside the
deadzone, yet the packet has 9 characters (the source never clamps the
magnitude to 999), refuting the claim that the packet always has exactly
8 characters for all integer offsets. -/
theorem claim_C1_counterexample :
    inDeadzone 10 0 1000 = false ∧
    (calculate_directional_packet 320 1030 640 480 210 10).length = 9 ∧
    matchesDirPattern (calculate_directional_packet 320 1030 640 480 210 10) =
      false := by decide

/-- C3: classification against the deadzone, stated with the exact
Euclidean distance the source compares (in floating point) against the
radius.  Within or on the deadzone boundary the packet is "U000L000";
strictly outside, it is the directional encoding of the offset; the
reference point itself always yields "U000L000". -/
theorem claim_C3_deadzone (eyeX eyeY fw fh off dz : Int) :
    (Real.sqrt (((eyeX - Int.fdiv fw 2 : Int) : ℝ) ^ 2 +
        ((eyeY - (Int.fdiv fh 2 - off) : Int) : ℝ) ^ 2) ≤ (dz : ℝ) →
      calculate_directional_packet eyeX eyeY fw fh off dz = inZonePacket) ∧
    ((dz : ℝ) < Real.sqrt (((eyeX - Int.fdiv fw 2 : Int) : ℝ) ^ 2 +
        ((eyeY - (Int.fdiv fh 2 - off) : Int) : ℝ) ^ 2) →
      calculate_directional_packet eyeX eyeY fw fh off dz =
        encodeDir (eyeX - Int.fdiv fw 2) (eyeY - (Int.fdiv fh 2 - off))) ∧
    (eyeX = Int.fdiv fw 2 ∧ eyeY = Int.fdiv fh 2 - off →
      calculate_directional_packet eyeX eyeY fw fh off dz = inZonePacket) := by
  refine ⟨?_, ?_, ?_⟩
  · intro h
    have hin := (inDeadzone_iff_sqrt dz _ _).mpr h
    rw [calc_eq_ite, hin]
    simp
  · intro h
    have hfalse : inDeadzone dz (eyeX - Int.fdiv fw 2)
        (eyeY - (Int.fdiv fh 2 - off)) = false := by
      cases hin : inDeadzone dz (eyeX - Int.fdiv fw 2)
          (eyeY - (Int.fdiv fh 2 - off)) with
      | false => rfl
      | true => exact absurd ((inDeadzone_iff_sqrt dz _ _).mp hin) (not_le.mpr h)
    rw [calc_eq_ite, hfalse]
    simp
  · rintro ⟨hxr, hyr⟩
    subst hxr
    subst hyr
    rw [calc_eq_ite, sub_self, sub_self]
    cases hin : inDeadzone dz 0 0 with
    | true => simp
    | false => simp [encodeDir]; decide

/-- C3 witness: with frame 640 by 480, offset 210 and radius 10, the
reference point (320, 30) maps to "U000L000" and the position (331, 30)
at distance 11 maps to the directional encoding of (11, 0). -/
theorem claim_C3_witness :
    calculate_directional_packet 320 30 640 480 210 10 = inZonePacket ∧
    calculate_directional_packet 331 30 640 480 210 10 = encodeDir 11 0 := by
  constructor
  · refine (claim_C3_deadzone 320 30 640 480 210 10).1 ?_
    rw [show (320 - Int.fdiv 640 2 : Int) = 0 from by decide,
      show (30 - (Int.fdiv 480 2 - 210) : Int) = 0 from by decide]
    push_cast
    simp [Real.sqrt_zero]
  · refine (claim_C3_deadzone 331 30 640 480 210 10).2.1 ?_ |>.trans ?_
    · rw [show (331 - Int.fdiv 640 2 : Int) = 11 from by decide,
        show (30 - (Int.fdiv 480 2 - 210) : Int) = 0 from by decide]
      push_cast
      have h121 : Real.sqrt ((11 : ℝ) ^ 2 + 0 ^ 2) = 11 := by
        rw [show ((11 : ℝ) ^ 2 + 0 ^ 2) = 11 ^ 2 by norm_num]
        exact Real.sqrt_sq (by norm_num)
      rw [h121]
      norm_num
    · rw [show (331 - Int.fdiv 640 2 : Int) = 11 from by decide,
        show (30 - (Int.fdiv 480 2 - 210) : Int) = 0 from by decide]

/-! ## Control-loop packet dispatch (run) -/

/-- Packet chosen by one iteration of run: the neutral packet when the
position is absent, the directional packet otherwise. -/
def choosePacket (pos : Option (Int × Int)) (fw fh off dz : Int) : List Char :=
  match pos with
  | none => neutralPacket
  | some (x, y) => calculate_directional_packet x y fw fh off dz

/-- C10: the directional packet calculation never yields the neutral
packet: its first character is always U or D, and in the run dispatch
the packet equals "N000N000" exactly when the position is absent. -/
theorem claim_C10_neutral_unique (fw fh off dz : Int) :
    (∀ x y, (calculate_directional_packet x y fw fh off dz).head? = some 'U' ∨
      (calculate_directional_packet x y fw fh off dz).head? = some 'D') ∧
    (∀ x y, calculate_directional_packet x y fw fh off dz ≠ neutralPacket) ∧
    (∀ pos, choosePacket pos fw fh off dz = neutralPacket ↔ pos = none) := by
  have hhead : ∀ x y,
      (calculate_directional_packet x y fw fh off dz).head? = some 'U' ∨
        (calculate_directional_packet x y fw fh off dz).head? = some 'D' := by
    intro x y
    rw [calc_eq_ite]
    cases hin : inDeadzone dz (x - Int.fdiv fw 2) (y - (Int.fdiv fh 2 - off)) with
    | true => left; rfl
    | false =>
      by_cases hdy0 : y - (Int.fdiv fh 2 - off) ≤ 0
      · left; simp [encodeDir, hdy0]
      · right; simp [encodeDir, hdy0]
  have hne : ∀ x y,
      calculate_directional_packet x y fw fh off dz ≠ neutralPacket := by
    intro x y heq
    have hh := congrArg List.head? heq
    rcases hhead x y with h | h <;> rw [h] at hh <;> simp [neutralPacket] at hh
  refine ⟨hhead, hne, ?_⟩
  intro pos
  cases pos with
  | none => simp [choosePacket]
  | some p =>
    obtain ⟨x, y⟩ := p
    simp [choosePacket, hne x y]

/-- C10 witness: the absent position maps to the neutral packet, and a
concrete detected position does not. -/
theorem claim_C10_witness :
    choosePacket none 640 480 210 10 = neutralPacket ∧
    calculate_directional_packet 320 240 640 480 210 10 ≠ neutralPacket :=
  ⟨((claim_C10_neutral_unique 640 480 210 10).2.2 none).mpr rfl,
    (claim_C10_neutral_unique 640 480 210 10).2.1 320 240⟩

/-! ## Eye selector hysteresis (get_eye_location, lines 197-223) -/

/-- Which eye is active ('left' or 'right' in the source). -/
inductive Side where
  | left
  | right
deriving DecidableEq, Repr

/-- The opposite side. -/
def Side.other : Side → Side
  | .left => .right
  | .right => .left

/-- Selector state: active_eye and last_visibility_check of the model.
Time stamps are rationals (idealizing the float time.time clock). -/
structure SelState where
  active : Side
  lastCheck : ℚ
deriving DecidableEq, Repr

/-- Re-check block of get_eye_location when a face is detected:
re-evaluate switching only when now - lastCheck has reached the check
interval (default 1.0); at a re-check, switch only when the active side
is invalid and the other is valid, and stamp the check time.  The
per-side validity v abstracts the call _is_eye_visible(lm, side), which
is deterministic in the landmarks. -/
def selectorCheck (st : SelState) (now interval : ℚ) (v : Side → Bool) :
    SelState :=
  if now - st.lastCheck ≥ interval then
    let newActive :=
      match st.active with
      | .left => if ¬ v .left ∧ v .right then Side.right else Side.left
      | .right => if ¬ v .right ∧ v .left then Side.left else Side.right
    SelState.mk newActive now
  else st

/-- Output phase of get_eye_location after the re-check block: the active
side position when that side is currently visible, else absent. -/
def selectorStep (st : SelState) (now interval : ℚ) (v : Side → Bool)
    (pos : Side → Int × Int) : SelState × Option (Int × Int) :=
  let st' := selectorCheck st now interval v
  if v st'.active then (st', some (pos st'.active)) else (st', none)

/-- The state after a full iteration is the state after the re-check
block; the output phase never mutates it. -/
lemma selectorStep_fst (st : SelState) (now interval : ℚ) (v : Side → Bool)
    (pos : Side → Int × Int) :
    (selectorStep st now interval v pos).1 = selectorCheck st now interval v := by
  unfold selectorStep
  cases hv : v (selectorCheck st now interval v).active <;> simp [hv]

/-- C4: between re-checks the state (active side and timestamp) never
changes; at a re-check boundary the active side switches exactly when it
is invalid and the other side is valid; and the output of every
iteration is the (post-check) active side position when that side is
currently valid, else absent. -/
theorem claim_C4_selector_sticky (st : SelState) (now interval : ℚ)
    (v : Side → Bool) (pos : Side → Int × Int) :
    (now - st.lastCheck < interval →
      (selectorStep st now interval v pos).1 = st) ∧
    (now - st.lastCheck ≥ interval →
      (selectorStep st now interval v pos).1.active =
        (if v st.active = false ∧ v st.active.other = true
         then st.active.other else st.active) ∧
      (selectorStep st now interval v pos).1.lastCheck = now) ∧
    ((selectorStep st now interval v pos).2 =
      if v (selectorStep st now interval v pos).1.active
      then some (pos (selectorStep st now interval v pos).1.active)
      else none) := by
  refine ⟨?_, ?_, ?_⟩
  · intro h
    have h' : ¬ now - st.lastCheck ≥ interval := not_le.mpr h
    rw [selectorStep_fst, selectorCheck, if_neg h']
  · intro h
    rw [selectorStep_fst, selectorCheck, if_pos h]
    refine ⟨?_, rfl⟩
    obtain ⟨side, last⟩ := st
    cases side <;>
      cases hl : v Side.left <;> cases hr : v Side.right <;>
        simp [Side.other, hl, hr]
  · rw [selectorStep_fst]
    unfold selectorStep
    cases hv : v (selectorCheck st now interval v).active <;> simp [hv]

/-- C4 witness: a concrete mid-interval iteration (now 0.5, last check 0,
interval 1) leaves the state of an active-left selector unchanged even
though only the right eye is valid. -/
theorem claim_C4_witness :
    (selectorStep (SelState.mk Side.left 0) (1 / 2) 1
      (fun s => match s with | Side.left => false | Side.right => true)
      (fun _ => (7, 9))).1 = SelState.mk Side.left 0 :=
  (claim_C4_selector_sticky (SelState.mk Side.left 0) (1 / 2) 1
      (fun s => match s with | Side.left => false | Side.right => true)
      (fun _ => (7, 9))).1 (by norm_num)

/-! ## Serial link (send_packet, lines 195-226) -/

/-- A serial handle; beyond identity the only observable the send path
consults is whether the port is open. -/
structure SerHandle where
  isOpen : Bool
deriving DecidableEq, Repr

/-- Outcomes the environment chooses for each fallible serial primitive
during one send_packet call: port open, write, flush, close, and the
serial.Serial constructor used for the reconnect. -/
structure SerEnv where
  openOk : Bool
  writeOk : Bool
  flushOk : Bool
  closeOk : Bool
  reconnectOk : Bool
deriving DecidableEq, Repr

/-- A fallible Python call: ok or raises. -/
def pyCall (ok : Bool) : Except Unit Unit :=
  if ok then Except.ok () else Except.error ()

/-- Body of the outer try of send_packet: reopen the port if it is
closed, then write, then flush; returns the handle as left by the body. -/
def sendBody (h : SerHandle) (env : SerEnv) : Except Unit SerHandle := do
  let h ← if h.isOpen then pure h
    else do
      let _ ← pyCall env.openOk
      pure (SerHandle.mk true)
  let _ ← pyCall env.writeOk
  let _ ← pyCall env.flushOk
  pure h

/-- Body of the nested reconnect try of send_packet: close the old
handle, then construct a fresh serial connection. -/
def reconnectBody (env : SerEnv) : Except Unit SerHandle := do
  let _ ← pyCall env.closeOk
  let _ ← pyCall env.reconnectOk
  pure (SerHandle.mk true)

/-- Transcription of send_packet: a no-op when no handle exists; on any
failure in the try body, one reconnect attempt; if that also fails the
handle becomes None.  The result carries the new handle and the number
of reconnect attempts made; the Except layer is the exception behavior
seen by the caller. -/
def send_packet (ar : Option SerHandle) (env : SerEnv) :
    Except Unit (Option SerHandle × Nat) :=
  match ar with
  | none => Except.ok (none, 0)
  | some h =>
    match sendBody h env with
    | Except.ok h' => Except.ok (some h', 0)
    | Except.error _ =>
      match reconnectBody env with
      | Except.ok h2 => Except.ok (some h2, 1)
      | Except.error _ => Except.ok (none, 1)

/-- Boolean test that an Except value is a success. -/
def exceptIsOk : Except Unit (Option SerHandle × Nat) → Bool
  | Except.ok _ => true
  | Except.error _ => false

/-- Decidable equality on send results, used to settle finite case
splits of the serial environment by computation. -/
instance : DecidableEq (Except Unit (Option SerHandle × Nat)) := fun a b =>
  match a, b with
  | Except.ok x, Except.ok y =>
    if h : x = y then isTrue (by rw [h]) else isFalse (by simp [h])
  | Except.error x, Except.error y => isTrue (by cases x; cases y; rfl)
  | Except.ok _, Except.error _ => isFalse (by simp)
  | Except.error _, Except.ok _ => isFalse (by simp)

/-- C5: send_packet with no handle is a no-op that makes no reconnect
attempt; send_packet never lets an exception escape; and when a write or
flush on an open port fails, exactly one reconnect attempt is made,
after which the handle is the fresh connection on success and None on
failure (so all later calls are silent no-ops). -/
theorem claim_C5_send_recovery (env : SerEnv) (h : SerHandle) :
    send_packet none env = Except.ok (none, 0) ∧
    exceptIsOk (send_packet (some h) env) = true ∧
    (h.isOpen = true → (env.writeOk = false ∨ env.flushOk = false) →
      send_packet (some h) env =
        Except.ok (if env.closeOk && env.reconnectOk
          then (some (SerHandle.mk true), 1) else (none, 1))) := by
  obtain ⟨o, w, f, c, r⟩ := env
  obtain ⟨io⟩ := h
  cases o <;> cases w <;> cases f <;> cases c <;> cases r <;> cases io <;> decide

/-- C5 witness: an open handle whose write fails and whose reconnect also
fails ends with no handle after exactly one reconnect attempt, and the
following call with no handle is a silent no-op. -/
theorem claim_C5_witness :
    send_packet (some (SerHandle.mk true))
        (SerEnv.mk true false true false false) =
      Except.ok (none, 1) ∧
    send_packet none (SerEnv.mk true false true false false) =
      Except.ok (none, 0) :=
  ⟨(claim_C5_send_recovery (SerEnv.mk true false true false false)
      (SerHandle.mk true)).2.2 rfl (Or.inl rfl),
    (claim_C5_send_recovery (SerEnv.mk true false true false false)
      (SerHandle.mk true)).1⟩

/-! ## One iteration of the main loop (run, lines 260-315) -/

/-- One iteration of the run loop of arduino_pwm_serial_output.py: the
get_eye_location call is wrapped in try/except, a raised exception being
replaced by the absent position; the packet is the neutral packet when
the position is absent and the directional packet otherwise; the packet
is sent over the (recovering) serial link; the loop breaks only when the
quit key was pressed.  Result: (packet sent, serial handle afterwards,
whether the loop continues to the next iteration). -/
def runIteration (eyeRes : Except Unit (Option (Int × Int)))
    (ar : Option SerHandle) (env : SerEnv) (quitKey : Bool)
    (fw fh off dz : Int) : List Char × Option SerHandle × Bool :=
  let pos := match eyeRes with
    | Except.error _ => none
    | Except.ok p => p
  let packet := choosePacket pos fw fh off dz
  let ar2 := match send_packet ar env with
    | Except.ok r => r.1
    | Except.error _ => ar
  (packet, ar2, !quitKey)

/-- C6: whenever the position is absent for an iteration, whether because
nothing was detected, the camera read failed (both surfacing as ok none)
or get_eye_location raised (error), the packet sent is exactly
"N000N000", and the iteration does not terminate the loop (it continues
whenever the quit key was not pressed, for every serial outcome). -/
theorem claim_C6_absent_neutral (eyeRes : Except Unit (Option (Int × Int)))
    (ar : Option SerHandle) (env : SerEnv) (quitKey : Bool)
    (fw fh off dz : Int)
    (habsent : eyeRes = Except.error () ∨ eyeRes = Except.ok none) :
    (runIteration eyeRes ar env quitKey fw fh off dz).1 = neutralPacket ∧
    (quitKey = false →
      (runIteration eyeRes ar env quitKey fw fh off dz).2.2 = true) := by
  rcases habsent with h | h <;> subst h <;>
    exact ⟨rfl, fun hq => by subst hq; rfl⟩

/-- C6 witness: a failed camera read with an open serial link and no quit
key sends the neutral packet and continues. -/
theorem claim_C6_witness :
    (runIteration (Except.ok none) (some (SerHandle.mk true))
      (SerEnv.mk true true true true true) false 640 480 210 10).1 =
        neutralPacket ∧
    (runIteration (Except.ok none) (some (SerHandle.mk true))
      (SerEnv.mk true true true true true) false 640 480 210 10).2.2 = true :=
  ⟨(claim_C6_absent_neutral (Except.ok none) (some (SerHandle.mk true))
      (SerEnv.mk true true true true true) false 640 480 210 10
      (Or.inr rfl)).1,
    (claim_C6_absent_neutral (Except.ok none) (some (SerHandle.mk true))
      (SerEnv.mk true true true true true) false 640 480 210 10
      (Or.inr rfl)).2 rfl⟩

/-! ## Shutdown (cleanup, lines 331-398) -/

/-- Observable events of the cleanup routine, in program order. -/
inductive CleanupEv where
  | wroteNeutral
  | flushedNeutral
  | neutralErrLogged
  | eyeModelCleaned
  | eyeErrLogged
  | closedSerial
  | closeErrLogged
  | closeWarn
deriving DecidableEq, Repr

/-- Environment outcomes for the fallible steps of cleanup: the neutral
write, its flush, the eye model cleanup, and each of the up to three
close attempts. -/
structure CleanupEnv where
  writeOk : Bool
  flushOk : Bool
  eyeOk : Bool
  closeOk : Nat → Bool

/-- Step 1 of cleanup: when a serial handle exists and is open, write the
neutral packet "N000N000" and flush it; any exception is logged and
swallowed (the try/except around the block). -/
def neutralPhase (ar : Option SerHandle) (env : CleanupEnv) : List CleanupEv :=
  match ar with
  | none => []
  | some h =>
    if h.isOpen then
      if env.writeOk then
        if env.flushOk then [CleanupEv.wroteNeutral, CleanupEv.flushedNeutral]
        else [CleanupEv.wroteNeutral, CleanupEv.neutralErrLogged]
      else [CleanupEv.neutralErrLogged]
    else []

/-- Step 2 of cleanup: eye model cleanup, errors logged and swallowed. -/
def eyePhase (env : CleanupEnv) : List CleanupEv :=
  if env.eyeOk then [CleanupEv.eyeModelCleaned] else [CleanupEv.eyeErrLogged]

/-- The three-attempt close loop of step 3: each attempt does nothing
when no handle exists (so the loop runs out and warns); with a handle, a
successful attempt closes and breaks, a raising attempt logs and
retries. -/
def closeLoop : Nat → Nat → Option SerHandle → (Nat → Bool) →
    List CleanupEv × Bool
  | 0, _, _, _ => ([], false)
  | n + 1, k, ar, ok =>
    match ar with
    | none => closeLoop n (k + 1) none ok
    | some h =>
      if ok k then ([CleanupEv.closedSerial], true)
      else
        let rest := closeLoop n (k + 1) (some h) ok
        (CleanupEv.closeErrLogged :: rest.1, rest.2)

/-- Step 3 of cleanup: run the close loop for three attempts and warn if
the handle was not discarded. -/
def closePhase (ar : Option SerHandle) (env : CleanupEnv) : List CleanupEv :=
  let r := closeLoop 3 0 ar env.closeOk
  r.1 ++ (if r.2 then [] else [CleanupEv.closeWarn])

/-- Transcription of cleanup (serial-relevant steps): neutral write phase,
then eye model phase, then close phase; every phase swallows its own
exceptions, so the routine is total and raises nothing. -/
def cleanupTrace (ar : Option SerHandle) (env : CleanupEnv) : List CleanupEv :=
  neutralPhase ar env ++ eyePhase env ++ closePhase ar env

/-- C7: when the link is open and the write and flush succeed, the
cleanup trace starts with the neutral write followed by its flush, and
every close event comes strictly later; when no open link exists, no
neutral write is attempted; when the write raises, the failure is logged
and cleanup still proceeds to the remaining steps (nothing is raised,
cleanupTrace being total by construction). -/
theorem claim_C7_neutral_before_close (ar : Option SerHandle)
    (env : CleanupEnv) (h : SerHandle) :
    (ar = some h → h.isOpen = true → env.writeOk = true → env.flushOk = true →
      cleanupTrace ar env =
        CleanupEv.wroteNeutral :: CleanupEv.flushedNeutral ::
          (eyePhase env ++ closePhase ar env) ∧
      CleanupEv.closedSerial ∉ neutralPhase ar env ∧
      CleanupEv.wroteNeutral ∉ eyePhase env ++ closePhase ar env) ∧
    (ar = none → CleanupEv.wroteNeutral ∉ cleanupTrace ar env) ∧
    (ar = some h → h.isOpen = false →
      CleanupEv.wroteNeutral ∉ cleanupTrace ar env) ∧
    (ar = some h → h.isOpen = true → env.writeOk = false →
      cleanupTrace ar env =
        CleanupEv.neutralErrLogged :: (eyePhase env ++ closePhase ar env)) := by
  have heye : ∀ e : CleanupEnv, CleanupEv.wroteNeutral ∉ eyePhase e := by
    intro e
    unfold eyePhase
    cases e.eyeOk <;> simp
  have hclose : ∀ (n k : Nat) (a : Option SerHandle) (ok : Nat → Bool),
      CleanupEv.wroteNeutral ∉ (closeLoop n k a ok).1 ∧
        CleanupEv.closedSerial ∉ neutralPhase a env := by
    intro n
    induction n with
    | zero =>
      intro k a ok
      constructor
      · simp [closeLoop]
      · cases a with
        | none => simp [neutralPhase]
        | some hh =>
          unfold neutralPhase
          cases hh.isOpen <;> cases env.writeOk <;> cases env.flushOk <;> simp
    | succ m ih =>
      intro k a ok
      refine ⟨?_, (ih k a ok).2⟩
      cases a with
      | none => exact (ih (k + 1) none ok).1
      | some hh =>
        unfold closeLoop
        cases hok : ok k with
        | true => simp
        | false =>
          intro hmem
          simp only [hok] at hmem
          rw [if_neg (by simp)] at hmem
          rcases List.mem_cons.mp hmem with hc | hc
          · exact absurd hc (by simp)
          · exact (ih (k + 1) (some hh) ok).1 hc
  have hclosePhase : ∀ a : Option SerHandle,
      CleanupEv.wroteNeutral ∉ closePhase a env := by
    intro a
    unfold closePhase
    intro hmem
    rcases List.mem_append.mp hmem with hc | hc
    · exact (hclose 3 0 a env.closeOk).1 hc
    · rcases (closeLoop 3 0 a env.closeOk).2 <;> simp_all
  refine ⟨?_, ?_, ?_, ?_⟩
  · rintro rfl hopen hw hf
    refine ⟨?_, ?_, ?_⟩
    · rw [cleanupTrace, neutralPhase, hopen, hw, hf]
      simp
    · exact (hclose 3 0 (some h) env.closeOk).2
    · intro hmem
      rcases List.mem_append.mp hmem with hc | hc
      · exact heye env hc
      · exact hclosePhase (some h) hc
  · rintro rfl
    rw [cleanupTrace]
    intro hmem
    rcases List.mem_append.mp hmem with hc | hc
    · rcases List.mem_append.mp hc with hc2 | hc2
      · simp [neutralPhase] at hc2
      · exact heye env hc2
    · exact hclosePhase none hc
  · rintro rfl hopen
    rw [cleanupTrace]
    intro hmem
    rcases List.mem_append.mp hmem with hc | hc
    · rcases List.mem_append.mp hc with hc2 | hc2
      · rw [neutralPhase, hopen] at hc2
        simp at hc2
      · exact heye env hc2
    · exact hclosePhase (some h) hc
  · rintro rfl hopen hw
    rw [cleanupTrace]
    simp [neutralPhase, hopen, hw]

/-- C7 witness: an open link with all steps succeeding writes and flushes
the neutral packet first and closes afterwards; a closed link writes no
neutral packet. -/
theorem claim_C7_witness :
    cleanupTrace (some (SerHandle.mk true))
        (CleanupEnv.mk true true true (fun _ => true)) =
      CleanupEv.wroteNeutral :: CleanupEv.flushedNeutral ::
        (eyePhase (CleanupEnv.mk true true true (fun _ => true)) ++
          closePhase (some (SerHandle.mk true))
            (CleanupEnv.mk true true true (fun _ => true))) ∧
    CleanupEv.wroteNeutral ∉ cleanupTrace none
      (CleanupEnv.mk true true true (fun _ => true)) :=
  ⟨((claim_C7_neutral_before_close (some (SerHandle.mk true))
      (CleanupEnv.mk true true true (fun _ => true))
      (SerHandle.mk true)).1 rfl rfl rfl rfl).1,
    (claim_C7_neutral_before_close none
      (CleanupEnv.mk true true true (fun _ => true))
      (SerHandle.mk true)).2.1 rfl⟩

/-! ## Eye visibility (_is_eye_visible, lines 130-169) -/

/-- A MediaPipe landmark as consumed by _is_eye_visible: normalized
coordinates (floats, idealized as rationals) and optional presence and
visibility scores (None or a missing attribute are both modelled as
none). -/
structure Landmark where
  x : ℚ
  y : ℚ
  presence : Option ℚ
  visibility : Option ℚ
deriving DecidableEq

/-- Index of the iris center landmark used for each side (473 left, 468
right). -/
def irisCenterIndex : Side → Nat
  | Side.left => 473
  | Side.right => 468

/-- Transcription of _is_eye_visible: the body runs under a try/except
returning False on any exception, so an out-of-range landmark index (an
IndexError from landmarks[center_idx]) yields false; with the center
landmark in hand, in-bounds normalized coordinates yield true
immediately; only otherwise are the presence (> 0.1) and then
visibility (> 0.05) scores consulted. -/
def is_eye_visible (landmarks : List Landmark) (side : Side) : Bool :=
  match landmarks.get? (irisCenterIndex side) with
  | none => false
  | some c =>
    if 0 ≤ c.x ∧ c.x ≤ 1 ∧ 0 ≤ c.y ∧ c.y ≤ 1 then true
    else if (match c.presence with
             | some p => decide (p > 1 / 10)
             | none => false) then true
    else if (match c.visibility with
             | some v => decide (v > 1 / 20)
             | none => false) then true
    else false

/-- C9: the visibility test never raises (an out-of-range index yields
false), and it returns true for every center landmark with in-bounds
normalized coordinates, whatever its presence and visibility scores are,
so the confidence fallback can matter only for out-of-bounds
coordinates. -/
theorem claim_C9_visibility_total (landmarks : List Landmark) (side : Side) :
    (landmarks.get? (irisCenterIndex side) = none →
      is_eye_visible landmarks side = false) ∧
    (∀ c, landmarks.get? (irisCenterIndex side) = some c →
      0 ≤ c.x → c.x ≤ 1 → 0 ≤ c.y → c.y ≤ 1 →
      is_eye_visible landmarks side = true) := by
  constructor
  · intro hnone
    rw [is_eye_visible, hnone]
  · intro c hc hx0 hx1 hy0 hy1
    simp only [is_eye_visible, hc]
    rw [if_pos ⟨hx0, hx1, hy0, hy1⟩]

/-- C9 witness: a landmark list whose right iris center has coordinates
(1/2, 1/2) and zero-confidence scores tests visible, and the empty
landmark list (where indexing would raise) tests invisible. -/
theorem claim_C9_witness :
    is_eye_visible
      (List.replicate 469 (Landmark.mk (1 / 2) (1 / 2) (some 0) (some 0)))
      Side.right = true ∧
    is_eye_visible [] Side.left = false := by
  constructor
  · refine (claim_C9_visibility_total
      (List.replicate 469 (Landmark.mk (1 / 2) (1 / 2) (some 0) (some 0)))
      Side.right).2 (Landmark.mk (1 / 2) (1 / 2) (some 0) (some 0)) ?_
      (by norm_num) (by norm_num) (by norm_num) (by norm_num)
    show (List.replicate 469
      (Landmark.mk (1 / 2) (1 / 2) (some 0) (some 0))).get? 468 =
        some (Landmark.mk (1 / 2) (1 / 2) (some 0) (some 0))
    rw [List.get?_eq_getElem?, List.getElem?_replicate]
    norm_num
  · exact (claim_C9_visibility_total [] Side.left).1 rfl

/-! ## The missing get_current_frame method (claim C2) -/

/-- An annotated camera frame, opaque pixel data. -/
def Frame := List Nat
deriving DecidableEq

/-- Names bound on instances of class EyeDetectionModel: the methods the
class defines and the attributes __init__ assigns.  Transcribed from
eye_detection_model.py; notably there is no get_current_frame. -/
def eyeDetectionModelAttrs : List String :=
  ["frame_w", "frame_h", "deadzone_pixels", "reference_offset_pixels",
   "mp_face_mesh", "face_mesh", "LEFT_IRIS_CENTER", "RIGHT_IRIS_CENTER",
   "LEFT_IRIS", "RIGHT_IRIS", "LEFT_EYELID", "RIGHT_EYELID", "cap",
   "last_frame", "last_packet", "active_eye", "last_visibility_check",
   "visibility_check_interval", "center_mode", "_cleanup_called",
   "_cleanup_lock", "__init__", "_is_eye_visible", "get_eye_location",
   "display_frame_with_packet", "cleanup", "__del__"]

/-- Python attribute lookup on the eye model: AttributeError when the
name is not bound on the instance or its class. -/
def getattrEyeModel (name : String) : Except String Unit :=
  if eyeDetectionModelAttrs.contains name then Except.ok ()
  else Except.error ("AttributeError: " ++ name)

/-- Slot update under the frame lock, as run performs it:
self.latest_annotated_frame = annotated_frame (a plain replacement). -/
def publishSlot (_slot : Option Frame) (f : Frame) : Option Frame := some f

/-- Frame phase of one iteration of UnifiedEyeTrackingController.run
(lines 540-600): fetch the current frame with
self.eye_model.get_current_frame() — an attribute lookup that is not
wrapped in any inner try/except — and, were a frame returned, annotate
it and store it under the frame lock.  The success continuation models
the publish the source intends. -/
def unifiedFramePhase (slot : Option Frame) (annotated : Frame) :
    Except String (Option Frame) :=
  match getattrEyeModel "get_current_frame" with
  | Except.error e => Except.error e
  | Except.ok _ => Except.ok (publishSlot slot annotated)

/-- C2 (refuting): class EyeDetectionModel binds no attribute named
get_current_frame, so the frame phase of every control-loop iteration
raises AttributeError instead of publishing; since run catches this
only in its outermost handler, the loop terminates and no annotated
frame is ever stored for the HTTP stream readers. -/
theorem claim_C2_frame_phase_raises (slot : Option Frame) (annotated : Frame) :
    eyeDetectionModelAttrs.contains "get_current_frame" = false ∧
    unifiedFramePhase slot annotated =
      Except.error ("AttributeError: " ++ "get_current_frame") := by
  constructor
  · decide
  · rw [unifiedFramePhase, getattrEyeModel]
    rw [if_neg (by decide)]

/-! ## Frame broadcast buffer

The single slot latest_annotated_frame is written by run under
self.frame_lock and read by get_latest_annotated_frame under the same
lock, which returns a copy of the slot or None.  Both critical sections
are O(1) and terminating, so the lock serializes them: an execution is
an arbitrary interleaving of atomic publish and read operations, which
the trace semantics below ranges over. -/

/-- The read-side copy (.copy() on the numpy array): a fresh buffer with
the same contents. -/
def copyFrame (f : Frame) : Frame := f.map id

/-- Transcription of get_latest_annotated_frame: under the lock, a copy
of the slot when one was published, else None. -/
def latestSlot (s : Option Frame) : Option Frame := s.map copyFrame

/-- An atomic operation on the frame slot: a publish by the control loop
or a read by one of the HTTP stream handlers. -/
inductive BufOp where
  | pub (f : Frame)
  | read

/-- Run an interleaving over the slot, collecting each read result in
order. -/
def bufRun : Option Frame → List BufOp → Option Frame × List (Option Frame)
  | s, [] => (s, [])
  | s, BufOp.pub f :: rest => bufRun (publishSlot s f) rest
  | s, BufOp.read :: rest =>
    let r := bufRun s rest
    (r.1, latestSlot s :: r.2)

/-- The frame most recently published in a trace, starting from a given
slot. -/
def lastPublished (s : Option Frame) (ops : List BufOp) : Option Frame :=
  ops.foldl (fun acc op => match op with
    | BufOp.pub f => some f
    | BufOp.read => acc) s

/-- Number of reads in a trace. -/
def readCount : List BufOp → Nat
  | [] => 0
  | BufOp.pub _ :: rest => readCount rest
  | BufOp.read :: rest => readCount rest + 1

/-- A deep copy is equal (as data) to the original: copying can never
manufacture a torn frame. -/
lemma copyFrame_eq (f : Frame) : copyFrame f = f := List.map_id f

/-- The read occurring right after a prefix of operations returns the
copy of the frame most recently published in that prefix (or None when
nothing was published yet), for every interleaving. -/
lemma bufRun_read_at (pre : List BufOp) :
    ∀ (s : Option Frame) (post : List BufOp),
      ((bufRun s (pre ++ BufOp.read :: post)).2).get? (readCount pre) =
        some (latestSlot (lastPublished s pre)) := by
  induction pre with
  | nil =>
    intro s post
    rfl
  | cons op rest ih =>
    intro s post
    cases op with
    | pub f =>
      show ((bufRun (publishSlot s f) (rest ++ BufOp.read :: post)).2).get?
          (readCount rest) = some (latestSlot (lastPublished s
            (BufOp.pub f :: rest)))
      rw [ih (publishSlot s f) post]
      rfl
    | read =>
      show (latestSlot s ::
          (bufRun s (rest ++ BufOp.read :: post)).2).get?
            (readCount rest + 1) = _
      rw [List.get?_cons_succ, ih s post]
      rfl

/-- A trace without publishes leaves a never-published slot empty. -/
lemma lastPublished_none (pre : List BufOp) (hnp : ∀ f, BufOp.pub f ∉ pre) :
    lastPublished none pre = none := by
  induction pre with
  | nil => rfl
  | cons op rest ih =>
    cases op with
    | pub f => exact absurd (List.mem_cons_self (BufOp.pub f) rest) (hnp f)
    | read =>
      refine ih ?_
      intro f hf
      exact hnp f (List.mem_cons_of_mem _ hf)

/-- C8: in every interleaving of publishes and reads, each read returns
exactly a copy of the single most recently published frame (never a torn
value), a never-published buffer reads as absent, a copy carries the
same data as the published frame, and a publish is a plain slot
replacement whose result does not depend on the previous slot or on any
reader. -/
theorem claim_C8_frame_buffer :
    (∀ pre post : List BufOp,
      ((bufRun none (pre ++ BufOp.read :: post)).2).get? (readCount pre) =
        some (latestSlot (lastPublished none pre))) ∧
    (∀ pre post : List BufOp, (∀ f, BufOp.pub f ∉ pre) →
      ((bufRun none (pre ++ BufOp.read :: post)).2).get? (readCount pre) =
        some none) ∧
    (∀ f, latestSlot (some f) = some (copyFrame f) ∧ copyFrame f = f) ∧
    (∀ s f, publishSlot s f = some f) := by
  refine ⟨fun pre post => bufRun_read_at pre none post, ?_, ?_, ?_⟩
  · intro pre post hnp
    rw [bufRun_read_at pre none post, lastPublished_none pre hnp]
    rfl
  · intro f
    exact ⟨rfl, copyFrame_eq f⟩
  · intro s f
    rfl

/-- C8 witness: in the concrete interleaving publish [1,2,3] then read,
the read returns the published frame, and a read before any publish
returns absent. -/
theorem claim_C8_witness :
    ((bufRun none ([BufOp.pub [1, 2, 3]] ++ BufOp.read :: [])).2).get?
        (readCount [BufOp.pub [1, 2, 3]]) =
      some (latestSlot (lastPublished none [BufOp.pub [1, 2, 3]])) ∧
    ((bufRun none ([] ++ BufOp.read :: [BufOp.pub [4]])).2).get?
        (readCount ([] : List BufOp)) = some none :=
  ⟨claim_C8_frame_buffer.1 [BufOp.pub [1, 2, 3]] [],
    claim_C8_frame_buffer.2.1 [] [BufOp.pub [4]]
      (fun f hf => by simp at hf)⟩

end EyeTrack
